import Mathlib

/-!
Shallow embedding of the value-expression evaluator of `pkg/value/value.go`
(package `value` of the dbload repository).

Go strings are modelled as lists of characters (the evaluator's primitives
`strings.Split`, `strings.TrimSpace`, `strings.Fields` and the quote regexp
all operate on the decoded rune sequence; every delimiter involved is ASCII,
so the byte/rune distinction is immaterial).  Handler results: every
registered handler of the repository returns a Go `string` on success, so the
running value (`interface{}` in Go, `nil` until first set) is modelled as
`Option Str`.  The impure primitives (`uuid.New()`, `time.Now()`,
`bcrypt.GenerateFromPassword`) are modelled by an oracle environment `Env`
indexed by a call counter that the evaluation threads through.
-/

namespace DBLoad

/-- Go strings, as their rune sequences. -/
abbrev Str := List Char

/-- Coerce a Lean string literal into the model's string type. -/
def str (s : String) : Str := s.data

/-- `unicode.IsSpace`: the white-space code points recognised by Go's
`strings.TrimSpace` and `strings.Fields` (Latin-1 range plus the
`White_Space` property code points). -/
def isSpace (c : Char) : Bool :=
  decide (c.toNat ∈ [9, 10, 11, 12, 13, 32, 0x85, 0xA0, 0x1680,
    0x2000, 0x2001, 0x2002, 0x2003, 0x2004, 0x2005, 0x2006, 0x2007,
    0x2008, 0x2009, 0x200A, 0x2028, 0x2029, 0x202F, 0x205F, 0x3000])

/-- `strings.TrimSpace`: drop white space from both ends. -/
def trim (l : Str) : Str :=
  ((l.dropWhile isSpace).reverse.dropWhile isSpace).reverse

/-- `strings.Split(value, "|")` specialised to a one-character separator:
the list of (possibly empty) segments between occurrences of `c`. -/
def splitOn (c : Char) : Str → List Str
  | [] => [[]]
  | x :: xs =>
    if x = c then
      [] :: splitOn c xs
    else
      match splitOn c xs with
      | [] => [[x]]
      | h :: t => (x :: h) :: t

/-- Accumulator form of `strings.Fields`: split around runs of white space,
dropping empty fields.  `acc` holds the current field reversed. -/
def fieldsAux : Str → Str → List Str
  | [], acc => if acc = [] then [] else [acc.reverse]
  | x :: xs, acc =>
    if isSpace x then
      if acc = [] then fieldsAux xs [] else acc.reverse :: fieldsAux xs []
    else
      fieldsAux xs (x :: acc)

/-- `strings.Fields`. -/
def fields (l : Str) : List Str := fieldsAux l []

/-- Is `c` one of the two quote characters of `quotePattern`? -/
def isQuote (c : Char) : Bool := c = '\'' || c = '"'

/-- `quotePattern.FindStringSubmatch` for the anchored regexp
`(['\x22])(.*)(['\x22])$` (with a leading caret): the first character must be
a quote, the last character must be a quote, and the greedy `(.*)` spans
everything in between.  In Go's regexp dialect `.` does not match a newline,
so a match also requires the middle to be newline-free.  Returns the three
submatches. -/
def quoteMatch : Str → Option (Char × Str × Char)
  | [] => none
  | q1 :: rest =>
    match rest.getLast? with
    | none => none
    | some q2 =>
      let mid := rest.dropLast
      if isQuote q1 && isQuote q2 && !(decide ('\n' ∈ mid)) then
        some (q1, mid, q2)
      else
        none

/-- The quoted-literal test of `Eval`: the regexp must match and the two
quote submatches must be the same character (`matches[1] == matches[3]`);
the literal's value is the middle submatch. -/
def litOf (t : Str) : Option Str :=
  match quoteMatch t with
  | some (q1, mid, q2) => if q1 = q2 then some mid else none
  | none => none

/-! ### SHA-256 (`crypto/sha256` + `encoding/hex` as used by the hash handler)

The hash handler computes `sha256.Sum256([]byte(arg))` and hex-encodes it.
Bytes are naturals below 256; 32-bit words are naturals below `2 ^ 32`. -/

/-- Truncate to a 32-bit word. -/
def w32 (x : Nat) : Nat := x % 4294967296

/-- Rotate a 32-bit word right by `n` bits. -/
def rotr (n x : Nat) : Nat := w32 ((x >>> n) ||| (x <<< (32 - n)))

def bigSigma0 (x : Nat) : Nat := rotr 2 x ^^^ rotr 13 x ^^^ rotr 22 x

def bigSigma1 (x : Nat) : Nat := rotr 6 x ^^^ rotr 11 x ^^^ rotr 25 x

def smallSigma0 (x : Nat) : Nat := rotr 7 x ^^^ rotr 18 x ^^^ (x >>> 3)

def smallSigma1 (x : Nat) : Nat := rotr 17 x ^^^ rotr 19 x ^^^ (x >>> 10)

def chFn (x y z : Nat) : Nat := (x &&& y) ^^^ ((4294967295 ^^^ x) &&& z)

def majFn (x y z : Nat) : Nat := (x &&& y) ^^^ (x &&& z) ^^^ (y &&& z)

/-- The 64 SHA-256 round constants of FIPS 180-4 (written in decimal). -/
def sha256K : List Nat :=
  [1116352408, 1899447441, 3049323471, 3921009573, 961987163, 1508970993,
   2453635748, 2870763221, 3624381080, 310598401, 607225278, 1426881987,
   1925078388, 2162078206, 2614888103, 3248222580, 3835390401, 4022224774,
   264347078, 604807628, 770255983, 1249150122, 1555081692, 1996064986,
   2554220882, 2821834349, 2952996808, 3210313671, 3336571891, 3584528711,
   113926993, 338241895, 666307205, 773529912, 1294757372, 1396182291,
   1695183700, 1986661051, 2177026350, 2456956037, 2730485921, 2820302411,
   3259730800, 3345764771, 3516065817, 3600352804, 4094571909, 275423344,
   430227734, 506948616, 659060556, 883997877, 958139571, 1322822218,
   1537002063, 1747873779, 1955562222, 2024104815, 2227730452, 2361852424,
   2428436474, 2756734187, 3204031479, 3329325298]

/-- The initial SHA-256 hash state of FIPS 180-4 (written in decimal). -/
def sha256H0 : List Nat :=
  [1779033703, 3144134277, 1013904242, 2773480762,
   1359893119, 2600822924, 528734635, 1541459225]

/-- Merkle–Damgård padding: append `0x80`, zeros to 56 mod 64, and the
64-bit big-endian bit length. -/
def padBytes (msg : List Nat) : List Nat :=
  let L := msg.length
  let zeros := (119 - L % 64) % 64
  let bitLen := 8 * L
  msg ++ [0x80] ++ List.replicate zeros 0 ++
    [(bitLen >>> 56) % 256, (bitLen >>> 48) % 256, (bitLen >>> 40) % 256,
     (bitLen >>> 32) % 256, (bitLen >>> 24) % 256, (bitLen >>> 16) % 256,
     (bitLen >>> 8) % 256, bitLen % 256]

/-- Cut a (padded) byte list into 64-byte blocks; the first argument is
fuel bounding the number of blocks (structural recursion so that the
definition reduces definitionally). -/
def chunksAux : Nat → List Nat → List (List Nat)
  | 0, _ => []
  | _, [] => []
  | fuel + 1, x :: xs =>
    (x :: xs).take 64 :: chunksAux fuel ((x :: xs).drop 64)

/-- Cut a (padded) byte list into 64-byte blocks. -/
def chunks64 (l : List Nat) : List (List Nat) := chunksAux l.length l

/-- Big-endian 32-bit words from bytes. -/
def toWords : List Nat → List Nat
  | b0 :: b1 :: b2 :: b3 :: rest =>
    (b0 * 16777216 + b1 * 65536 + b2 * 256 + b3) :: toWords rest
  | _ => []

/-- Extend the 16-word message schedule by `n` further words. -/
def extendSchedule (w : List Nat) : Nat → List Nat
  | 0 => w
  | m + 1 =>
    let t := w.length
    let wt := w32 (smallSigma1 (w.getD (t - 2) 0) + w.getD (t - 7) 0 +
      smallSigma0 (w.getD (t - 15) 0) + w.getD (t - 16) 0)
    extendSchedule (w ++ [wt]) m

/-- One SHA-256 round on the eight-word working state. -/
def roundStep (kt wt : Nat)
    (s : Nat × Nat × Nat × Nat × Nat × Nat × Nat × Nat) :
    Nat × Nat × Nat × Nat × Nat × Nat × Nat × Nat :=
  let (a, b, c, d, e, f, g, h) := s
  let t1 := w32 (h + bigSigma1 e + chFn e f g + kt + wt)
  let t2 := w32 (bigSigma0 a + majFn a b c)
  (w32 (t1 + t2), a, b, c, w32 (d + t1), e, f, g)

/-- Compress one 64-byte block into the hash state. -/
def processBlock (hs : List Nat) (block : List Nat) : List Nat :=
  let w := extendSchedule (toWords block) 48
  let a0 := hs.getD 0 0
  let b0 := hs.getD 1 0
  let c0 := hs.getD 2 0
  let d0 := hs.getD 3 0
  let e0 := hs.getD 4 0
  let f0 := hs.getD 5 0
  let g0 := hs.getD 6 0
  let h0 := hs.getD 7 0
  let fin := (List.zip sha256K w).foldl
    (fun s p => roundStep p.1 p.2 s) (a0, b0, c0, d0, e0, f0, g0, h0)
  match fin with
  | (a, b, c, d, e, f, g, h) =>
    [w32 (a0 + a), w32 (b0 + b), w32 (c0 + c), w32 (d0 + d),
     w32 (e0 + e), w32 (f0 + f), w32 (g0 + g), w32 (h0 + h)]

/-- `sha256.Sum256` of a byte sequence, as eight 32-bit words. -/
def sha256Words (msg : List Nat) : List Nat :=
  (chunks64 (padBytes msg)).foldl processBlock sha256H0

/-- Lowercase hexadecimal digit. -/
def hexDigitChar (n : Nat) : Char :=
  Char.ofNat (if n < 10 then 48 + n else 87 + n)

/-- Eight lowercase hex digits of a 32-bit word. -/
def wordHex (x : Nat) : Str :=
  [hexDigitChar ((x >>> 28) % 16), hexDigitChar ((x >>> 24) % 16),
   hexDigitChar ((x >>> 20) % 16), hexDigitChar ((x >>> 16) % 16),
   hexDigitChar ((x >>> 12) % 16), hexDigitChar ((x >>> 8) % 16),
   hexDigitChar ((x >>> 4) % 16), hexDigitChar (x % 16)]

/-- UTF-8 encoding of one character (`[]byte(s)` on a Go string). -/
def utf8Char (c : Char) : List Nat :=
  let n := c.toNat
  if n < 0x80 then [n]
  else if n < 0x800 then
    [0xC0 + n / 64, 0x80 + n % 64]
  else if n < 0x10000 then
    [0xE0 + n / 4096, 0x80 + (n / 64) % 64, 0x80 + n % 64]
  else
    [0xF0 + n / 262144, 0x80 + (n / 4096) % 64, 0x80 + (n / 64) % 64,
     0x80 + n % 64]

/-- `[]byte(s)`: the UTF-8 bytes of a Go string. -/
def utf8Bytes (s : Str) : List Nat := (s.map utf8Char).flatten

/-- `hex.EncodeToString(sha256.Sum256([]byte(s))[:])`. -/
def sha256hex (s : Str) : Str := ((sha256Words (utf8Bytes s)).map wordHex).flatten

/-! ### Handlers and the function registry -/

/-- Decimal rendering of a natural (the `%d` verb of `fmt.Errorf`). -/
def natToStr (n : Nat) : Str := (Nat.repr n).data

/-- Oracle for the impure primitives: `uuids k` is the string returned by
the `k`-th impure call if it is `uuid.New().String()`, `nows k` if it is
the formatted `time.Now()`, `bcrypts k` if it is a generated bcrypt hash
(bcrypt salts via `crypto/rand`, so its output is likewise impure). -/
structure Env where
  uuids : Nat → Str
  nows : Nat → Str
  bcrypts : Nat → Str

/-- The all-empty oracle, used to close concrete statements. -/
def env0 : Env := ⟨fun _ => [], fun _ => [], fun _ => []⟩

/-- `FunctionHandler`, explicit about impurity: the handler receives the
oracle and the impure-call counter and returns its result together with the
advanced counter. -/
abbrev Handler := Env → Nat → List Str → Except Str (Str × Nat)

/-- The `hash` built-in: SHA-256 of its single argument, lowercase hex. -/
def hashHandler : Handler := fun _ ctr args =>
  match args with
  | [a] => .ok (sha256hex a, ctr)
  | _ => .error
      (str "hash function requires exactly one argument, got " ++
        natToStr args.length)

/-- The `now` built-in: rejects any argument, otherwise reads the clock. -/
def nowHandler : Handler := fun env ctr args =>
  match args with
  | [] => .ok (env.nows ctr, ctr + 1)
  | _ => .error
      (str "now function requires no arguments, got " ++ natToStr args.length)

/-- The `uuid` built-in: rejects any argument, otherwise draws a fresh
random UUID. -/
def uuidHandler : Handler := fun env ctr args =>
  match args with
  | [] => .ok (env.uuids ctr, ctr + 1)
  | _ => .error
      (str "uuid function requires no arguments, got " ++ natToStr args.length)

/-- `strconv.Atoi` on digits (no sign handled here; see `atoi`). -/
def parseDigitsAux : Str → Nat → Option Nat
  | [], acc => some acc
  | c :: cs, acc =>
    if 48 ≤ c.toNat ∧ c.toNat ≤ 57 then
      parseDigitsAux cs (acc * 10 + (c.toNat - 48))
    else
      none

/-- `strconv.Atoi`: optional sign, then at least one decimal digit and
nothing else.  (The int-range overflow case is irrelevant here.) -/
def atoi (s : Str) : Option Int :=
  match s with
  | [] => none
  | '+' :: rest =>
    match rest with
    | [] => none
    | _ => (parseDigitsAux rest 0).map Int.ofNat
  | '-' :: rest =>
    match rest with
    | [] => none
    | _ => (parseDigitsAux rest 0).map (fun n => -(n : Int))
  | _ => (parseDigitsAux s 0).map Int.ofNat

/-- The `bcrypt` built-in of the registry variant that registers it:
1 or 2 arguments, the optional second a numeric cost in
`[bcrypt.MinCost, bcrypt.MaxCost] = [4, 31]`; the generated hash itself is
salted (impure) and is read from the oracle. -/
def bcryptHandler : Handler := fun env ctr args =>
  if args.length < 1 || args.length > 2 then
    .error (str "bcrypt function requires 1 or 2 arguments (password, [cost]), got "
      ++ natToStr args.length)
  else
    match args with
    | _ :: costArg :: _ =>
      match atoi costArg with
      | none => .error
          (str "bcrypt cost must be a number: strconv.Atoi: parsing " ++
            costArg ++ str ": invalid syntax")
      | some cost =>
        if cost < 4 || cost > 31 then
          .error (str "bcrypt cost must be between 4 and 31")
        else
          .ok (env.bcrypts ctr, ctr + 1)
    | _ => .ok (env.bcrypts ctr, ctr + 1)

/-- `functionRegistry`: the name-to-handler map, as an association list
whose lookup takes the most recent binding (so insertion shadows exactly as
a Go map assignment replaces). -/
abbrev Registry := List (Str × Handler)

/-- `RegisterFunction`: insert or replace the binding for `name`. -/
def RegisterFunction (name : Str) (h : Handler) (reg : Registry) : Registry :=
  (name, h) :: reg

/-- `UnregisterFunction`: `delete(functionRegistry, name)`. -/
def UnregisterFunction (name : Str) (reg : Registry) : Registry :=
  reg.filter (fun e => decide (e.1 ≠ name))

/-- `GetFunction`: lookup; `none` models `found == false`. -/
def GetFunction (name : Str) : Registry → Option Handler
  | [] => none
  | (k, h) :: rest => if k = name then some h else GetFunction name rest

/-- The registry after `init` of the first evaluator variant, which
registers `hash`, `now` and `uuid` (in that order). -/
def initRegistry : Registry :=
  RegisterFunction (str "uuid") uuidHandler
    (RegisterFunction (str "now") nowHandler
      (RegisterFunction (str "hash") hashHandler []))

/-- The registry after `init` of the second evaluator variant, which
registers `hash`, `bcrypt`, `now` and `uuid` (in that order). -/
def initRegistryV2 : Registry :=
  RegisterFunction (str "uuid") uuidHandler
    (RegisterFunction (str "now") nowHandler
      (RegisterFunction (str "bcrypt") bcryptHandler
        (RegisterFunction (str "hash") hashHandler [])))

/-! ### The evaluator (`Eval` of the whitespace-call grammar variant) -/

/-- The loop state of `Eval`: whether the current stage is the first
(`i == 0` in the Go loop), the running value `result` (`nil` until a stage
sets it), and the impure-call counter of the oracle. -/
structure St where
  first : Bool
  result : Option Str
  ctr : Nat
deriving DecidableEq

/-- One iteration of the `Eval` loop on stage `part`: trim, try the quoted
literal, otherwise tokenize, append the running value as the implicit last
argument when `i > 0 && result != nil`, look the function up and invoke it,
wrapping a handler error as `function <name> error: <err>`. -/
def evalStage (env : Env) (reg : Registry) (st : St) (part : Str) :
    Except Str St :=
  let t := trim part
  match litOf t with
  | some mid => .ok ⟨false, some mid, st.ctr⟩
  | none =>
    match fields t with
    | [] => .error (str "empty function call")
    | fn :: args0 =>
      let args :=
        match st.first, st.result with
        | false, some r => args0 ++ [r]
        | _, _ => args0
      match GetFunction fn reg with
      | none => .error (str "unsupported function: " ++ fn)
      | some h =>
        match h env st.ctr args with
        | .error e => .error (str "function " ++ fn ++ str " error: " ++ e)
        | .ok (v, ctr2) => .ok ⟨false, some v, ctr2⟩

/-- The `Eval` loop over the remaining stages; an error returns at once. -/
def evalStages (env : Env) (reg : Registry) : St → List Str → Except Str St
  | st, [] => .ok st
  | st, p :: ps =>
    match evalStage env reg st p with
    | .error e => .error e
    | .ok st2 => evalStages env reg st2 ps

/-- `Eval`: split the input on `|`, run the stages, and return the Go pair
`(value, error)` — the running value with a nil error on success, and a nil
value with the error otherwise. -/
def Eval (env : Env) (reg : Registry) (input : Str) :
    Option Str × Option Str :=
  match evalStages env reg ⟨true, none, 0⟩ (splitOn '|' input) with
  | .error e => (none, some e)
  | .ok st => (st.result, none)

/-! ### Helper lemmas -/

theorem splitOn_of_not_mem (c : Char) (l : Str) (h : ¬ c ∈ l) :
    splitOn c l = [l] := by
  induction l with
  | nil => rfl
  | cons x xs ih =>
    have hx : ¬ x = c := fun he => h (he ▸ List.mem_cons_self x xs)
    have hxs : ¬ c ∈ xs := fun hm => h (List.mem_cons_of_mem x hm)
    simp [splitOn, hx, ih hxs]

theorem trim_of_ends (a b : Char) (l : Str) (ha : isSpace a = false)
    (hb : isSpace b = false) : trim (a :: (l ++ [b])) = a :: (l ++ [b]) := by
  unfold trim
  rw [List.dropWhile_cons_of_neg (by simp [ha])]
  rw [show (a :: (l ++ [b])).reverse = b :: (l.reverse ++ [a]) by simp]
  rw [List.dropWhile_cons_of_neg (by simp [hb])]
  simp

theorem litOf_quoted (q : Char) (mid : Str) (hq : isQuote q = true)
    (hn : ¬ '\n' ∈ mid) : litOf (q :: (mid ++ [q])) = some mid := by
  simp [litOf, quoteMatch, List.getLast?_concat, List.dropLast_concat, hq, hn]

theorem evalStages_append (env : Env) (reg : Registry) (st : St)
    (l1 l2 : List Str) :
    evalStages env reg st (l1 ++ l2) =
      match evalStages env reg st l1 with
      | .error e => .error e
      | .ok st2 => evalStages env reg st2 l2 := by
  induction l1 generalizing st with
  | nil => rfl
  | cons p ps ih =>
    simp only [List.cons_append, evalStages]
    cases evalStage env reg st p with
    | error e => rfl
    | ok st2 => exact ih st2

/-! ### The claims -/

set_option maxRecDepth 100000 in
/-- C1: `Eval "hash test"` returns the SHA-256 hex digest of `test`, and
`Eval "hash test|hash"` returns the SHA-256 hex digest of that digest
string (the first stage's result is the sole argument of the second hash),
under any oracle. -/
theorem eval_hash_pipe_composes (env : Env) :
    Eval env initRegistry (str "hash test") =
      (some (str "9f86d081884c7d659a2feaa0c55ad015a3bf4f1b2b0b822cd15d6c15b0f00a08"),
        none) ∧
    Eval env initRegistry (str "hash test|hash") =
      (some (str "7b3d979ca8330a94fa7e9e1b466d8b99e0bcdea1ec90596c0dcc8d7ef6b4300c"),
        none) :=
  ⟨by rfl, by rfl⟩

/-- C2 (code-bug evidence): the `uuid` handler invoked with one argument
does not succeed with a deterministic UUID — it fails the arity check, both
at the handler and through `Eval`, although the repository's README and
`example.yaml` document and use `uuid(seed)` as a deterministic UUID. -/
theorem uuid_seed_rejected :
    uuidHandler env0 0 [str "product-1"] =
      .error (str "uuid function requires no arguments, got 1") ∧
    Eval env0 initRegistry (str "uuid product-1") =
      (none, some (str "function uuid error: uuid function requires no arguments, got 1")) :=
  ⟨rfl, rfl⟩

/-- C3: after `init` of the variant that registers the four built-ins, the
registry resolves all of `hash`, `bcrypt`, `now` and `uuid`; in particular
`GetFunction "bcrypt"` reports found without any caller registration. -/
theorem builtins_preregistered :
    (GetFunction (str "hash") initRegistryV2).isSome = true ∧
    (GetFunction (str "bcrypt") initRegistryV2).isSome = true ∧
    (GetFunction (str "now") initRegistryV2).isSome = true ∧
    (GetFunction (str "uuid") initRegistryV2).isSome = true :=
  ⟨rfl, rfl, rfl, rfl⟩

/-- C6: the built-in handlers reject wrong arity through `Eval`: `hash`
with zero or two arguments, `now` and `uuid` with any explicit arguments,
and `uuid` receiving the prior stage's result as an implicit argument. -/
theorem builtin_arity_rejection (env : Env) :
    Eval env initRegistry (str "hash") =
      (none, some (str "function hash error: hash function requires exactly one argument, got 0")) ∧
    Eval env initRegistry (str "hash a b") =
      (none, some (str "function hash error: hash function requires exactly one argument, got 2")) ∧
    Eval env initRegistry (str "now arg") =
      (none, some (str "function now error: now function requires no arguments, got 1")) ∧
    Eval env initRegistry (str "uuid arg1 arg2") =
      (none, some (str "function uuid error: uuid function requires no arguments, got 2")) ∧
    Eval env initRegistry (str "hash pw|uuid") =
      (none, some (str "function uuid error: uuid function requires no arguments, got 1")) :=
  ⟨rfl, rfl, rfl, rfl, rfl⟩

/-- C4 counterexample: the input `'a|b'` surrounds a string with no single
quote in it by single quotes, yet `Eval` does not return it unchanged — the
split on the pipe happens before literal detection, so the stage `'a` is
tokenized as a call of the unknown function `'a`. -/
theorem quoted_literal_pipe_cex :
    Eval env0 initRegistry (str "'a|b'") ≠ (some (str "a|b"), none) ∧
    Eval env0 initRegistry (str "'a|b'") =
      (none, some (str "unsupported function: 'a")) :=
  ⟨by decide, rfl⟩

/-- C4 (amended): quoting then evaluating is the identity on every string
`s` that contains no quote character of the delimiter's kind, no pipe
character, and no newline, for either delimiter. -/
theorem quoted_literal_identity (env : Env) (q : Char) (s : Str)
    (hq : q = '\'' ∨ q = '"') (hs : ¬ q ∈ s) (hp : ¬ '|' ∈ s)
    (hn : ¬ '\n' ∈ s) :
    Eval env initRegistry (q :: s ++ [q]) = (some s, none) := by
  have hqq : isQuote q = true := by rcases hq with rfl | rfl <;> decide
  have hqs : isSpace q = false := by rcases hq with rfl | rfl <;> decide
  have hqp : ¬ q = '|' := by rcases hq with rfl | rfl <;> decide
  have hmem : ¬ '|' ∈ (q :: s ++ [q]) := by
    intro hm
    rcases List.mem_cons.mp hm with h1 | h2
    · exact hqp h1.symm
    · rcases List.mem_append.mp h2 with h3 | h4
      · exact hp h3
      · exact hqp (List.mem_singleton.mp h4).symm
  unfold Eval
  rw [splitOn_of_not_mem _ _ hmem]
  simp only [evalStages, evalStage, trim_of_ends q q s hqs hqs,
    List.cons_append, litOf_quoted q s hqq hn]

/-- C4 witness: both delimiters at `s = "ab"`. -/
theorem quoted_literal_identity_witness :
    Eval env0 initRegistry ('\'' :: str "ab" ++ ['\'']) =
      (some (str "ab"), none) ∧
    Eval env0 initRegistry ('"' :: str "ab" ++ ['"']) =
      (some (str "ab"), none) :=
  ⟨quoted_literal_identity env0 '\'' (str "ab") (Or.inl rfl)
      (by decide) (by decide) (by decide),
    quoted_literal_identity env0 '"' (str "ab") (Or.inr rfl)
      (by decide) (by decide) (by decide)⟩

/-- C5: a pipe-free input that fails the quoted-literal test (including
garbled unterminated or mismatched quotes) and whose first whitespace token
is not a registered name evaluates to the unsupported-function error naming
that token. -/
theorem unknown_function_unsupported (env : Env) (reg : Registry)
    (p fn : Str) (args : List Str)
    (hp : ¬ '|' ∈ p)
    (hlit : litOf (trim p) = none)
    (htok : fields (trim p) = fn :: args)
    (hreg : GetFunction fn reg = none) :
    Eval env reg p = (none, some (str "unsupported function: " ++ fn)) := by
  unfold Eval
  rw [splitOn_of_not_mem _ _ hp]
  simp only [evalStages, evalStage, hlit, htok, hreg]

/-- C5 witness: the unterminated-quote input `"mismatched'` and the plain
unknown call `invalid test`. -/
theorem unknown_function_unsupported_witness :
    Eval env0 initRegistry (str "invalid test") =
      (none, some (str "unsupported function: invalid")) ∧
    Eval env0 initRegistry (str "\"mismatched'") =
      (none, some (str "unsupported function: \"mismatched'")) :=
  ⟨unknown_function_unsupported env0 initRegistry (str "invalid test")
      (str "invalid") [str "test"] (by decide) rfl rfl rfl,
    unknown_function_unsupported env0 initRegistry (str "\"mismatched'")
      (str "\"mismatched'") [] (by decide) rfl rfl rfl⟩

/-- C7 counterexample: `hash|` has a stage that trims to nothing, yet
`Eval` reports the first stage's arity failure, not `empty function
call`. -/
theorem empty_stage_preempted_cex :
    splitOn '|' (str "hash|") = [str "hash", []] ∧
    trim [] = [] ∧
    Eval env0 initRegistry (str "hash|") =
      (none, some (str "function hash error: hash function requires exactly one argument, got 0")) ∧
    Eval env0 initRegistry (str "hash|") ≠
      (none, some (str "empty function call")) := by
  decide

/-- C7 (amended): if some stage trims to nothing and every stage before it
evaluates successfully, `Eval` returns the error `empty function call`
(in particular for the inputs ` `, `  ` and `|`, whose offending stage is
the first). -/
theorem empty_stage_error (env : Env) (reg : Registry) (input : Str)
    (l1 : List Str) (s : Str) (l2 : List Str) (st2 : St)
    (hsplit : splitOn '|' input = l1 ++ s :: l2)
    (hs : trim s = [])
    (hok : evalStages env reg ⟨true, none, 0⟩ l1 = .ok st2) :
    Eval env reg input = (none, some (str "empty function call")) := by
  unfold Eval
  rw [hsplit, evalStages_append, hok]
  simp only [evalStages, evalStage, hs]
  rfl

/-- C7 witness: the input `|`, whose first stage is already empty. -/
theorem empty_stage_error_witness :
    Eval env0 initRegistry (str "|") =
      (none, some (str "empty function call")) :=
  empty_stage_error env0 initRegistry (str "|") [] [] [[]]
    ⟨true, none, 0⟩ rfl rfl rfl

/-- C8: whenever `Eval` returns a non-nil error the returned value is nil,
never a partial running value; and an error short-circuits: stages after a
failing prefix are never run (evaluating any extension of a failing stage
list yields the same error). -/
theorem eval_error_nil_value (env : Env) (reg : Registry) (p : Str)
    (h : (Eval env reg p).2 ≠ none) :
    (Eval env reg p).1 = none ∧
    ∀ (st : St) (l1 l2 : List Str) (e : Str),
      evalStages env reg st l1 = .error e →
      evalStages env reg st (l1 ++ l2) = .error e := by
  constructor
  · unfold Eval at h ⊢
    cases hE : evalStages env reg ⟨true, none, 0⟩ (splitOn '|' p) with
    | error e => simp [hE]
    | ok st => rw [hE] at h; simp at h
  · intro st l1 l2 e hE
    rw [evalStages_append, hE]

/-- C8 witness: a failing input and a failing stage list extension. -/
theorem eval_error_nil_value_witness :
    (Eval env0 initRegistry (str "nosuch")).1 = none ∧
    evalStages env0 initRegistry ⟨true, none, 0⟩ [str "nosuch", str "hash"] =
      .error (str "unsupported function: nosuch") :=
  ⟨(eval_error_nil_value env0 initRegistry (str "nosuch") (by decide)).1,
    (eval_error_nil_value env0 initRegistry (str "nosuch") (by decide)).2
      ⟨true, none, 0⟩ [str "nosuch"] [str "hash"]
      (str "unsupported function: nosuch") rfl⟩

/-- C9: unregistering is idempotent and never errors: removing an absent
name is a no-op on the registry state, removing twice equals removing once,
and afterwards lookup reports not found. -/
theorem unregister_idempotent (reg : Registry) (name : Str) :
    (GetFunction name reg = none → UnregisterFunction name reg = reg) ∧
    UnregisterFunction name (UnregisterFunction name reg) =
      UnregisterFunction name reg ∧
    GetFunction name (UnregisterFunction name reg) = none := by
  refine ⟨?_, ?_, ?_⟩
  · induction reg with
    | nil => intro _; rfl
    | cons e rest ih =>
      obtain ⟨k, hd⟩ := e
      intro h
      simp only [GetFunction] at h
      by_cases hk : k = name
      · rw [if_pos hk] at h
        exact absurd h (by simp)
      · rw [if_neg hk] at h
        have hrest := ih h
        simp only [UnregisterFunction] at hrest ⊢
        rw [List.filter_cons, if_pos (by simp [hk]), hrest]
  · induction reg with
    | nil => rfl
    | cons e rest ih =>
      obtain ⟨k, hd⟩ := e
      simp only [UnregisterFunction] at ih ⊢
      by_cases hk : k = name
      · rw [List.filter_cons, if_neg (by simp [hk])]
        exact ih
      · rw [List.filter_cons, if_pos (by simp [hk])]
        rw [List.filter_cons, if_pos (by simp [hk])]
        rw [ih]
  · induction reg with
    | nil => rfl
    | cons e rest ih =>
      obtain ⟨k, hd⟩ := e
      simp only [UnregisterFunction] at ih ⊢
      by_cases hk : k = name
      · rw [List.filter_cons, if_neg (by simp [hk])]
        exact ih
      · rw [List.filter_cons, if_pos (by simp [hk])]
        simp only [GetFunction]
        rw [if_neg hk]
        exact ih

/-- C9 witness: removing an absent name from the initial registry, and
removing `hash` twice. -/
theorem unregister_idempotent_witness :
    UnregisterFunction (str "nosuch") initRegistry = initRegistry ∧
    UnregisterFunction (str "hash")
        (UnregisterFunction (str "hash") initRegistry) =
      UnregisterFunction (str "hash") initRegistry ∧
    GetFunction (str "hash") (UnregisterFunction (str "hash") initRegistry) =
      none :=
  ⟨(unregister_idempotent initRegistry (str "nosuch")).1 rfl,
    (unregister_idempotent initRegistry (str "hash")).2.1,
    (unregister_idempotent initRegistry (str "hash")).2.2⟩

/-- C10 counterexample: a stage of length at least 2 beginning and ending
with the same quote character and containing no pipe, but with a newline
between the quotes: the quote regexp does not match (`.` excludes the
newline in Go's dialect), so the stage is tokenized as a call instead of
yielding the interior verbatim. -/
theorem greedy_literal_newline_cex :
    ['"', 'a', '\n', 'b', '"'].head? = some '"' ∧
    ['"', 'a', '\n', 'b', '"'].getLast? = some '"' ∧
    ¬ '|' ∈ ['"', 'a', '\n', 'b', '"'] ∧
    Eval env0 initRegistry ['"', 'a', '\n', 'b', '"'] =
      (none, some (str "unsupported function: " ++ ['"', 'a'])) := by
  decide

/-- C10 (amended): literal detection is greedy with no interior-quote
check: whenever a pipe-free input trims to a stage that starts and ends
with the same quote character and whose interior contains no newline,
`Eval` returns the interior verbatim, even when it contains quote
characters. -/
theorem greedy_literal_no_interior_check (env : Env) (reg : Registry)
    (p : Str) (q : Char) (mid : Str)
    (hp : ¬ '|' ∈ p) (hq : isQuote q = true)
    (ht : trim p = q :: mid ++ [q]) (hn : ¬ '\n' ∈ mid) :
    Eval env reg p = (some mid, none) := by
  unfold Eval
  rw [splitOn_of_not_mem _ _ hp]
  simp only [evalStages, evalStage, ht, List.cons_append,
    litOf_quoted q mid hq hn]

/-- C10 witness: the five-character input `"a"b"` yields the three
characters `a"b`, and `''` yields the empty string. -/
theorem greedy_literal_witness :
    Eval env0 initRegistry (str "\"a\"b\"") = (some (str "a\"b"), none) ∧
    Eval env0 initRegistry (str "''") = (some [], none) :=
  ⟨greedy_literal_no_interior_check env0 initRegistry (str "\"a\"b\"")
      '"' (str "a\"b") (by decide) (by decide) (by decide) (by decide),
    greedy_literal_no_interior_check env0 initRegistry (str "''")
      '\'' [] (by decide) (by decide) (by decide) (by decide)⟩

end DBLoad
